import Mathlib

/-!
Verification of the LEDserver frame/metadata core.

The definitions below are a shallow embedding of the two source files:

* `src/server/server.ts` — the Express server: the animation/metadata caches,
  the cache initialization from the store, the `/metadata` and
  `/frameData/:frameId` routes, the `POST /data` full-replace handler, and the
  validation helpers `verifyAnimationJson`, `objectToArray`, `assertTrue`.
* `src/unnamed/part_000` — the client utilities: `get2Darray`,
  `fetchMetadataFromServer`, `genFrameID`, and the hex/byte codecs.

Modelling conventions:

* JavaScript exceptions (`assertTrue`, `throw new Error`, property access on
  `null`/`undefined`) are modelled with `Except String` / error components;
  an Express handler that throws before sending a response is modelled as
  producing no status (`none`).
* Possibly-`undefined` fields are modelled with `Option`.
* A frame object `{ "0": r, "1": g, ... }` is modelled as the association
  list of its own enumerable keys in `Object.keys` order.
* `genFrameID` draws random hexadecimal characters; the identifier stream is
  abstracted as a parameter `gen : Nat → String` giving the identifier
  returned by the n-th call, so theorems quantify over every possible
  sequence of generator outputs.
* The MongoDB store collaborator (`fetchFrame`, `insertFrame`,
  `fetchMetadataArray`, `replaceMetadataArray`) is abstracted as a fetch
  function and a success flag for the persistence sweep.
* The `Frame` and `Metadata` entity classes are imported by the server from
  `./Frame` and `./Metadata`, which are not in the tree; their fields are
  modelled from the spec's data-model section and from the constructor calls
  visible in `server.ts` (plain data holders, no behaviour).
-/

/-- Constant from the client source: edge length of the pixel matrix. -/
def IMAGE_PIXEL_LENGTH : Nat := 16

/-- Constant from the client source: number of pixels in a frame. -/
def FRAME_PIXEL_COUNT : Nat := IMAGE_PIXEL_LENGTH ^ 2

/-- Modelled from the spec: `FRAME_ID_LENGTH` lives in `src/server/constants.ts`,
which is not in the tree; the spec gives the frame identifier length as 6. -/
def FRAME_ID_LENGTH : Nat := 6

/-- JavaScript object holding one frame on the wire: own enumerable keys in
`Object.keys` order, each mapping to a numeric value. -/
abbrev FrameObj := List (String × Int)

/-- Shape of one element of the `POST /data` body (`AnimationState` in
`server.ts`); every field may be missing (`undefined`). -/
structure AnimationState where
  animationID : Option String
  frameDuration : Option Int
  repeatCount : Option Int
  frames : Option (List FrameObj)
  deriving DecidableEq, Repr

/-- Frame entity (`new Frame(frameID, animationID, data)` in `server.ts`). -/
structure Frame where
  frameID : String
  animationID : Option String
  data : List Int
  deriving DecidableEq, Repr

/-- Metadata entity (`new Metadata(animationID, frameDuration, repeatCount,
totalFrames, frameOrder)` in `server.ts`). -/
structure Metadata where
  animationID : Option String
  frameDuration : Option Int
  repeatCount : Option Int
  totalFrames : Nat
  frameOrder : List String
  deriving DecidableEq, Repr

/-- The two process-wide caches of `server.ts`: `metadataCache` (ordered) and
`animationCache` (a `Set` of freshly constructed `Frame` objects, kept here in
insertion order; distinct list positions are distinct objects of the set). -/
structure ServerState where
  metadataCache : List Metadata
  animationCache : List Frame
  deriving DecidableEq, Repr

/-- Result type of `verifyAnimationJson`: the function body can produce an
`Error` value or a boolean. -/
inductive VerifyResult where
  | errorValue (msg : String)
  | boolean (b : Bool)
  deriving DecidableEq, Repr

/-- Lookup of the JavaScript `length` property on a frame object: the value
of an own `length` key if one exists, `undefined` otherwise (a dense
numeric-keyed frame object has no such key). -/
def jsObjLength (o : FrameObj) : Option Int :=
  (o.find? (fun p => p.1 = ("length" : String))).map (fun p => p.2)

/-- Loop of `verifyAnimationJson` lines 272-274: for each index the code
asserts `animation.frames[i].length === 256`; comparing `undefined` with 256
is false, so the assertion throws unless the object carries a `length` key
equal to 256. -/
def checkFrames256 : Nat → List FrameObj → Except String Unit
  | _, [] => Except.ok ()
  | i, f :: rest =>
    if jsObjLength f = some 256 then checkFrames256 (i + 1) rest
    else Except.error (toString i ++ "th entry length in color array frame list != 256")

/-- Body of the `forEach` callback of `verifyAnimationJson` (the `try` block,
lines 264-274): the first failing `assertTrue` throws, and the `catch`
returns the error from the callback. -/
def checkAnimation (a : Option AnimationState) : Except String Unit :=
  match a with
  | none => Except.error ("given var is null")
  | some anim =>
    if anim.animationID.isNone then Except.error ("name is undefined")
    else if anim.frameDuration.isNone then Except.error ("frame duration is undefined")
    else if anim.repeatCount.isNone then Except.error ("repeat count is undefined")
    else
      match anim.frames with
      | none => Except.error ("frame list is undefined")
      | some fs =>
        if fs.length > 0 then checkFrames256 0 fs
        else Except.error ("frame list has no entries")

/-- Embedding of `verifyAnimationJson` (`server.ts` lines 262-280).
`Array.prototype.forEach` evaluates its callback for side effects and
discards the callback's return value, so the `return err` inside the `catch`
block never leaves `verifyAnimationJson`; after the loop the function
returns `true` unconditionally. -/
def verifyAnimationJson (input : List (Option AnimationState)) : VerifyResult :=
  let _checked := input.map checkAnimation
  VerifyResult.boolean true

/-- Inner map of `objectToArray` (lines 174-180): each key's value must be a
number between 0 and 255, otherwise the map callback throws. -/
def mapVals : List (String × Int) → Except String (List Int)
  | [] => Except.ok []
  | (k, v) :: rest =>
    if 0 ≤ v ∧ v ≤ 255 then do
      let r ← mapVals rest
      Except.ok (v :: r)
    else Except.error ("Invalid value at key " ++ k ++ ". Expected a number between 0 and 255.")

/-- Embedding of `objectToArray` (`server.ts` lines 169-183): asserts the
object has exactly `256 * 3` keys, then maps every key to its (range-checked)
value in `Object.keys` order. -/
def objectToArray (o : FrameObj) : Except String (List Int) :=
  if o.length = 256 * 3 then mapVals o
  else Except.error ("Invalid frame length. Expected 256*3.")

/-- Inner loop of the `POST /data` handler (lines 221-228): converts each
frame object, draws the next generator output as its frame identifier, and
accumulates the frame order and the new `Frame` objects. `c` is the number of
generator calls made so far. -/
def buildFrames (gen : Nat → String) (aid : Option String) :
    Nat → List FrameObj → Except String (List String × List Frame)
  | _, [] => Except.ok ([], [])
  | c, f :: rest => do
    let bytes ← objectToArray f
    let fid := gen c
    let (order, frames) ← buildFrames gen aid (c + 1) rest
    Except.ok (fid :: order, Frame.mk fid aid bytes :: frames)

/-- Outer loop of the `POST /data` handler (lines 217-231): reading a field of
a `null` entry throws, reading `.length` of a missing `frames` field throws;
otherwise a `Metadata` entry is built from the (possibly missing) fields and
the per-frame results are accumulated. -/
def processAnims (gen : Nat → String) :
    Nat → List (Option AnimationState) → Except String (List Metadata × List Frame)
  | _, [] => Except.ok ([], [])
  | c, a :: rest =>
    match a with
    | none => Except.error ("TypeError: cannot read properties of null")
    | some anim =>
      match anim.frames with
      | none => Except.error ("TypeError: cannot read properties of undefined")
      | some fs => do
        let (order, frames) ← buildFrames gen anim.animationID c fs
        let (mds, moreFrames) ← processAnims gen (c + fs.length) rest
        Except.ok
          (Metadata.mk anim.animationID anim.frameDuration anim.repeatCount fs.length order :: mds,
           frames ++ moreFrames)

/-- Field accesses performed by the logging statements of the handler
(lines 209-212) before the main loop: `newAnimationState[0].animationID` and
`newAnimationState[0].frames.length` throw when the body is empty, its first
entry is `null`, or the first entry has no `frames` field. -/
def headAccessOk (input : List (Option AnimationState)) : Bool :=
  match input with
  | [] => false
  | none :: _ => false
  | some a :: _ => a.frames.isSome

/-- Embedding of the `POST /data` route handler (`server.ts` lines 195-247).
`persistOk` abstracts the outcome of the persistence sweep
(`replaceMetadataArray` plus `pushAnimationCacheToMongo`). The returned
number is the HTTP status sent, `none` when the handler throws before
responding. The caches are only reassigned (lines 232-233) after the whole
build loop has succeeded, and they are not rolled back when persistence
fails (the `catch` only sends 501). -/
def handlePost (gen : Nat → String) (st : ServerState)
    (input : List (Option AnimationState)) (persistOk : Bool) :
    ServerState × Option Nat :=
  match verifyAnimationJson input with
  | VerifyResult.boolean true =>
    if headAccessOk input then
      match processAnims gen 0 input with
      | Except.error _ => (st, none)
      | Except.ok (md, fr) => (ServerState.mk md fr, some (if persistOk then 200 else 501))
    else (st, none)
  | _ => (st, some 500)

/-- Response of the `/frameData/:frameId` route. -/
inductive FrameResponse where
  | badRequest
  | notFound
  | okBytes (data : List Int)
  | serverError
  deriving DecidableEq, Repr

/-- Embedding of the `/frameData/:frameId` route handler (`server.ts` lines
145-167). `fetch` is the store collaborator `fetchFrame` from
`db/animationOperations`: it can reject (`Except.error`), resolve to `null`
(`Except.ok none`) or resolve to the stored bytes. The route consults only
the store; the in-memory `animationCache` is not an input of the handler. -/
def frameDataRoute (fetch : String → Except String (Option (List Int)))
    (frameId : String) : FrameResponse :=
  if frameId = ("" : String) then FrameResponse.badRequest
  else
    match fetch frameId with
    | Except.error _ => FrameResponse.serverError
    | Except.ok none => FrameResponse.notFound
    | Except.ok (some d) => FrameResponse.okBytes d

/-- Shape of the body sent by the `/metadata` route. `bareList` is a JSON
array of metadata entries; `wrappedObj` is an object with a single `metadata`
field holding that array. The `wrappedObj` form follows the spec's wire
format section and exists to compare the two shapes; the source route sends
`bareList`. -/
inductive MetadataWire where
  | bareList (l : List Metadata)
  | wrappedObj (l : List Metadata)
  deriving DecidableEq, Repr

/-- Embedding of the `/metadata` route handler (`server.ts` lines 133-142):
asserts every cached frame identifier has length `FRAME_ID_LENGTH` (the
first bad one throws), then sends `res.json(metadataCache)` — the bare
array. -/
def metadataRoute (cache : List Metadata) : Except String MetadataWire :=
  if cache.all (fun md => md.frameOrder.all (fun fid => fid.length = FRAME_ID_LENGTH)) then
    Except.ok (MetadataWire.bareList cache)
  else Except.error ("Frame ID is not the correct length")

/-- Embedding of the field access `data.metadata` in the client's
`fetchMetadataFromServer` (`part_000` lines 142-152): on an object response
it reads the `metadata` field; on an array response the property is
`undefined`. -/
def clientReadMetadata (w : MetadataWire) : Option (List Metadata) :=
  match w with
  | MetadataWire.wrappedObj l => some l
  | MetadataWire.bareList _ => none

/-- Result of cache initialization: the two module-level caches as left by
`connectToDbAndInitCache`, plus the error (if any) that aborted it. -/
structure InitResult where
  metadataCache : List Metadata
  animationCache : List Frame
  error : Option String
  deriving DecidableEq, Repr

/-- Inner loop of cache initialization (`server.ts` lines 65-71): for each
frame index `j` below `totalFrames`, fetch `frameOrder[j]` from the store; a
rejected fetch or a `null` result aborts with the frames added so far kept
in the cache. -/
def initInner (fetch : String → Except String (Option (List Int))) (md : Metadata) :
    List Nat → List Frame → List Frame × Option String
  | [], acc => (acc, none)
  | j :: rest, acc =>
    match fetch (md.frameOrder.getD j ("")) with
    | Except.error e => (acc, some e)
    | Except.ok none =>
      (acc, some ("Could not find animation for name and frame number " ++ toString j))
    | Except.ok (some d) =>
      initInner fetch md rest (acc ++ [Frame.mk (md.frameOrder.getD j ("")) md.animationID d])

/-- Outer loop of cache initialization (`server.ts` lines 62-72). -/
def initOuter (fetch : String → Except String (Option (List Int))) :
    List Metadata → List Frame → List Frame × Option String
  | [], acc => (acc, none)
  | md :: rest, acc =>
    match initInner fetch md (List.range md.totalFrames) acc with
    | (acc2, none) => initOuter fetch rest acc2
    | (acc2, some e) => (acc2, some e)

/-- Embedding of `connectToDbAndInitCache` (`server.ts` lines 29-75) on the
branch for a pre-seeded store (`metadata.length !== 0`; the empty branch
writes test seed data and then runs the identical loop on the re-read
metadata). `metadataCache` is assigned before the frame loop runs, and the
loop adds frames to `animationCache` one at a time, so a thrown assertion
leaves both module variables populated up to the failure point. -/
def connectToDbAndInitCache (fetch : String → Except String (Option (List Int)))
    (storedMds : List Metadata) : InitResult :=
  InitResult.mk storedMds (initOuter fetch storedMds []).1 (initOuter fetch storedMds []).2

/-- Embedding of the client's `get2Darray` (`part_000` lines 84-94): asserts
the flat array has `256 * 3` entries, then places the triplet at flat index
`3 * (i * 16 + j)` at row `i`, column `j`. -/
def get2Darray (arr : List Int) : Except String (List (List (List Int))) :=
  if arr.length = FRAME_PIXEL_COUNT * 3 then
    Except.ok (List.ofFn (fun i : Fin IMAGE_PIXEL_LENGTH =>
      List.ofFn (fun j : Fin IMAGE_PIXEL_LENGTH =>
        [arr.getD (3 * (i.val * IMAGE_PIXEL_LENGTH + j.val)) 0,
         arr.getD (3 * (i.val * IMAGE_PIXEL_LENGTH + j.val) + 1) 0,
         arr.getD (3 * (i.val * IMAGE_PIXEL_LENGTH + j.val) + 2) 0])))
  else Except.error ("Array length needs to be 256*3")

/-- Row-major flattening of a pixel grid: concatenate the rows, each row
being the concatenation of its RGB triplets. -/
def flattenGrid (g : List (List (List Int))) : List Int :=
  (g.map List.flatten).flatten

/-- Grid carried by a successful `get2Darray` result, the empty grid on
error. -/
def gridOrNil (e : Except String (List (List (List Int)))) : List (List (List Int)) :=
  match e with
  | Except.ok g => g
  | Except.error _ => []

/-- Default animation used to read fields of possibly-missing entries. -/
def noAnim : AnimationState := AnimationState.mk none none none none

/-- Default metadata entry for indexed access. -/
def noMd : Metadata := Metadata.mk none none none 0 []

/-- Default frame for indexed access. -/
def noFrame : Frame := Frame.mk ("") none []

/-- Animation at index `i` of a payload. -/
def animAt (input : List (Option AnimationState)) (i : Nat) : AnimationState :=
  (input.getD i none).getD noAnim

/-- Frame list of a payload entry. -/
def framesOf (a : Option AnimationState) : List FrameObj :=
  (a.getD noAnim).frames.getD []

/-- Frame list of the animation at index `i` of a payload. -/
def framesAt (input : List (Option AnimationState)) (i : Nat) : List FrameObj :=
  framesOf (input.getD i none)

/-- Number of generator outputs consumed before animation `i` of a payload:
the total frame count of the preceding animations. -/
def offsetAt : List (Option AnimationState) → Nat → Nat
  | _, 0 => 0
  | [], _ + 1 => 0
  | a :: rest, i + 1 => (framesOf a).length + offsetAt rest i

/-- Total number of frames of a payload. -/
def totalLen : List (Option AnimationState) → Nat
  | [] => 0
  | a :: rest => (framesOf a).length + totalLen rest

/-- Validity of one frame object with respect to the conversion step
`objectToArray`: exactly `256 * 3` keys, every value an integer in
`[0, 255]`. -/
def frameObjValid (o : FrameObj) : Prop :=
  o.length = 256 * 3 ∧ ∀ p ∈ o, 0 ≤ p.2 ∧ p.2 ≤ 255

instance (o : FrameObj) : Decidable (frameObjValid o) := by
  unfold frameObjValid; infer_instance

/-- Payload entry the build loop of `POST /data` accepts: a non-null entry
with a defined frame list whose frames all convert. -/
def animOk (a : Option AnimationState) : Prop :=
  a.isSome = true ∧ ((a.getD noAnim).frames).isSome = true ∧ ∀ f ∈ framesOf a, frameObjValid f

instance (a : Option AnimationState) : Decidable (animOk a) := by
  unfold animOk; infer_instance

/-- Payload the `POST /data` handler accepts end to end. -/
def inputOk (input : List (Option AnimationState)) : Prop :=
  input ≠ [] ∧ ∀ a ∈ input, animOk a

instance (input : List (Option AnimationState)) : Decidable (inputOk input) := by
  unfold inputOk; infer_instance

/-- Expected frame order for `n` frames starting at generator call `c`: the
successive generator outputs. -/
def expOrder (gen : Nat → String) : Nat → Nat → List String
  | _, 0 => []
  | c, n + 1 => gen c :: expOrder gen (c + 1) n

/-- Expected frames built from a frame list starting at generator call `c`. -/
def expFrames (gen : Nat → String) (aid : Option String) :
    Nat → List FrameObj → List Frame
  | _, [] => []
  | c, f :: rest => Frame.mk (gen c) aid (f.map (fun p => p.2)) :: expFrames gen aid (c + 1) rest

/-- Expected metadata cache after a successful full replace starting at
generator call `c`. -/
def expMds (gen : Nat → String) : Nat → List (Option AnimationState) → List Metadata
  | _, [] => []
  | c, a :: rest =>
    Metadata.mk (a.getD noAnim).animationID (a.getD noAnim).frameDuration
      (a.getD noAnim).repeatCount (framesOf a).length
      (expOrder gen c (framesOf a).length) ::
    expMds gen (c + (framesOf a).length) rest

/-- Expected animation cache after a successful full replace starting at
generator call `c`. -/
def expCache (gen : Nat → String) : Nat → List (Option AnimationState) → List Frame
  | _, [] => []
  | c, a :: rest =>
    expFrames gen (a.getD noAnim).animationID c (framesOf a) ++
    expCache gen (c + (framesOf a).length) rest

theorem mapVals_ok (o : List (String × Int)) (h : ∀ p ∈ o, 0 ≤ p.2 ∧ p.2 ≤ 255) :
    mapVals o = Except.ok (o.map (fun p => p.2)) := by
  induction o with
  | nil => rfl
  | cons p rest ih =>
    have hp := h p (List.mem_cons_self p rest)
    have hrest : ∀ q ∈ rest, 0 ≤ q.2 ∧ q.2 ≤ 255 :=
      fun q hq => h q (List.mem_cons_of_mem p hq)
    obtain ⟨k, v⟩ := p
    simp only [mapVals, if_pos hp, ih hrest, List.map_cons]
    rfl

theorem objectToArray_ok (o : FrameObj) (h : frameObjValid o) :
    objectToArray o = Except.ok (o.map (fun p => p.2)) := by
  unfold objectToArray
  rw [if_pos h.1]
  exact mapVals_ok o h.2

theorem mapVals_ok_inv (o : List (String × Int)) (bs : List Int)
    (h : mapVals o = Except.ok bs) : ∀ p ∈ o, 0 ≤ p.2 ∧ p.2 ≤ 255 := by
  induction o generalizing bs with
  | nil => intro p hp; cases hp
  | cons p rest ih =>
    intro q hq
    rw [List.mem_cons] at hq
    by_cases hv : 0 ≤ p.2 ∧ p.2 ≤ 255
    · rcases hq with hq | hq
      · exact hq ▸ hv
      · obtain ⟨k, v⟩ := p
        simp only [mapVals, if_pos hv] at h
        cases hrest : mapVals rest with
        | error e => rw [hrest] at h; cases h
        | ok r => exact ih r hrest q hq
    · obtain ⟨k, v⟩ := p
      simp only [mapVals, if_neg hv] at h
      cases h

theorem objectToArray_ok_inv (o : FrameObj) (bs : List Int)
    (h : objectToArray o = Except.ok bs) : frameObjValid o := by
  unfold objectToArray at h
  by_cases hl : o.length = 256 * 3
  · rw [if_pos hl] at h
    exact ⟨hl, mapVals_ok_inv o bs h⟩
  · rw [if_neg hl] at h
    cases h

theorem buildFrames_eq (gen : Nat → String) (aid : Option String) (fs : List FrameObj)
    (c : Nat) (h : ∀ f ∈ fs, frameObjValid f) :
    buildFrames gen aid c fs =
      Except.ok (expOrder gen c fs.length, expFrames gen aid c fs) := by
  induction fs generalizing c with
  | nil => rfl
  | cons f rest ih =>
    have hf := h f (List.mem_cons_self f rest)
    have hrest : ∀ g ∈ rest, frameObjValid g := fun g hg => h g (List.mem_cons_of_mem f hg)
    simp only [buildFrames, objectToArray_ok f hf, ih (c + 1) hrest,
      List.length_cons, expOrder, expFrames]
    rfl

theorem processAnims_eq (gen : Nat → String) (input : List (Option AnimationState))
    (c : Nat) (h : ∀ a ∈ input, animOk a) :
    processAnims gen c input = Except.ok (expMds gen c input, expCache gen c input) := by
  induction input generalizing c with
  | nil => rfl
  | cons a rest ih =>
    have ha := h a (List.mem_cons_self a rest)
    have hrest : ∀ b ∈ rest, animOk b := fun b hb => h b (List.mem_cons_of_mem a hb)
    obtain ⟨h1, h2, h3⟩ := ha
    match a with
    | none => cases h1
    | some anim =>
      match hfs : anim.frames with
      | none => rw [Option.getD_some, hfs] at h2; cases h2
      | some fs =>
        have hfr : ∀ f ∈ fs, frameObjValid f := by
          intro f hf
          apply h3
          simp only [framesOf, Option.getD_some, noAnim, hfs]
          exact hf
        simp only [processAnims, hfs, buildFrames_eq gen anim.animationID fs c hfr,
          ih (c + fs.length) hrest, framesOf, Option.getD_some, noAnim, expMds, expCache]
        rfl

theorem headAccessOk_of_inputOk (input : List (Option AnimationState))
    (h : inputOk input) : headAccessOk input = true := by
  obtain ⟨hne, hall⟩ := h
  match input with
  | [] => exact absurd rfl hne
  | a :: rest =>
    obtain ⟨h1, h2, _⟩ := hall a (List.mem_cons_self a rest)
    match a with
    | none => cases h1
    | some anim =>
      simp only [headAccessOk]
      rw [Option.getD_some] at h2
      exact h2

theorem handlePost_ok (gen : Nat → String) (st : ServerState)
    (input : List (Option AnimationState)) (persistOk : Bool) (h : inputOk input) :
    handlePost gen st input persistOk =
      (ServerState.mk (expMds gen 0 input) (expCache gen 0 input),
       some (if persistOk then 200 else 501)) := by
  unfold handlePost verifyAnimationJson
  simp only [headAccessOk_of_inputOk input h, if_true,
    processAnims_eq gen input 0 h.2]

theorem buildFrames_ok_inv (gen : Nat → String) (aid : Option String)
    (fs : List FrameObj) (c : Nat) (r : List String × List Frame)
    (h : buildFrames gen aid c fs = Except.ok r) : ∀ f ∈ fs, frameObjValid f := by
  induction fs generalizing c r with
  | nil => intro f hf; cases hf
  | cons f rest ih =>
    intro g hg
    rw [List.mem_cons] at hg
    cases hconv : objectToArray f with
    | error e =>
      simp only [buildFrames, hconv] at h
      exact Except.noConfusion h
    | ok bytes =>
      rcases hg with hg | hg
      · exact hg ▸ objectToArray_ok_inv f bytes hconv
      · cases hrest : buildFrames gen aid (c + 1) rest with
        | error e =>
          simp only [buildFrames, hconv, hrest] at h
          exact Except.noConfusion h
        | ok r2 => exact ih (c + 1) r2 hrest g hg

theorem processAnims_ok_inv (gen : Nat → String) (input : List (Option AnimationState))
    (c : Nat) (r : List Metadata × List Frame)
    (h : processAnims gen c input = Except.ok r) : ∀ a ∈ input, animOk a := by
  induction input generalizing c r with
  | nil => intro a ha; cases ha
  | cons a rest ih =>
    intro b hb
    rw [List.mem_cons] at hb
    match a with
    | none =>
      simp only [processAnims] at h
      exact Except.noConfusion h
    | some anim =>
      match hfs : anim.frames with
      | none =>
        simp only [processAnims, hfs] at h
        exact Except.noConfusion h
      | some fs =>
        simp only [processAnims, hfs] at h
        cases hbf : buildFrames gen anim.animationID c fs with
        | error e =>
          rw [hbf] at h
          exact Except.noConfusion h
        | ok p =>
          rw [hbf] at h
          cases hrest : processAnims gen (c + fs.length) rest with
          | error e =>
            rw [hrest] at h
            exact Except.noConfusion h
          | ok q =>
            rcases hb with hb | hb
            · subst hb
              refine ⟨rfl, ?_, ?_⟩
              · rw [Option.getD_some, hfs]; rfl
              · intro f hf
                apply buildFrames_ok_inv gen anim.animationID fs c p hbf
                simpa only [framesOf, Option.getD_some, noAnim, hfs] using hf
            · exact ih (c + fs.length) q hrest b hb

theorem expOrder_length (gen : Nat → String) (c n : Nat) :
    (expOrder gen c n).length = n := by
  induction n generalizing c with
  | zero => rfl
  | succ n ih => simp only [expOrder, List.length_cons, ih (c + 1)]

theorem expOrder_getD (gen : Nat → String) (c n j : Nat) (h : j < n) :
    (expOrder gen c n).getD j ("") = gen (c + j) := by
  induction n generalizing c j with
  | zero => cases h
  | succ n ih =>
    cases j with
    | zero => rfl
    | succ j =>
      have hj : j < n := Nat.lt_of_succ_lt_succ h
      simp only [expOrder, List.getD_cons_succ, ih (c + 1) j hj]
      congr 1
      omega

theorem expOrder_mem (gen : Nat → String) (c n : Nat) (s : String)
    (h : s ∈ expOrder gen c n) : ∃ k, c ≤ k ∧ k < c + n ∧ s = gen k := by
  induction n generalizing c with
  | zero => cases h
  | succ n ih =>
    rw [expOrder, List.mem_cons] at h
    rcases h with h | h
    · exact ⟨c, Nat.le_refl c, by omega, h⟩
    · obtain ⟨k, hk1, hk2, hk3⟩ := ih (c + 1) h
      exact ⟨k, by omega, by omega, hk3⟩

theorem expOrder_nodup (gen : Nat → String) (c n : Nat)
    (h : ∀ i j, c ≤ i → i < c + n → c ≤ j → j < c + n → gen i = gen j → i = j) :
    (expOrder gen c n).Nodup := by
  induction n generalizing c with
  | zero => exact List.nodup_nil
  | succ n ih =>
    rw [expOrder, List.nodup_cons]
    constructor
    · intro hmem
      obtain ⟨k, hk1, hk2, hk3⟩ := expOrder_mem gen (c + 1) n (gen c) hmem
      have : c = k := h c k (Nat.le_refl c) (by omega) (by omega) (by omega) hk3
      omega
    · exact ih (c + 1) (fun i j h1 h2 h3 h4 he => h i j (by omega) (by omega) (by omega) (by omega) he)

theorem expFrames_ids (gen : Nat → String) (aid : Option String) (c : Nat)
    (fs : List FrameObj) :
    (expFrames gen aid c fs).map (fun fr => fr.frameID) = expOrder gen c fs.length := by
  induction fs generalizing c with
  | nil => rfl
  | cons f rest ih =>
    simp only [expFrames, List.map_cons, List.length_cons, expOrder, ih (c + 1)]

theorem expOrder_append (gen : Nat → String) (c m n : Nat) :
    expOrder gen c (m + n) = expOrder gen c m ++ expOrder gen (c + m) n := by
  induction m generalizing c with
  | zero => simp [expOrder]
  | succ m ih =>
    have h1 : m + 1 + n = (m + n) + 1 := by omega
    rw [h1]
    simp only [expOrder, List.cons_append]
    rw [ih (c + 1)]
    have h2 : c + 1 + m = c + (m + 1) := by omega
    rw [h2]

theorem expCache_ids (gen : Nat → String) (c : Nat)
    (input : List (Option AnimationState)) :
    (expCache gen c input).map (fun fr => fr.frameID) = expOrder gen c (totalLen input) := by
  induction input generalizing c with
  | nil => rfl
  | cons a rest ih =>
    simp only [expCache, List.map_append, expFrames_ids, ih (c + (framesOf a).length),
      totalLen, expOrder_append gen c (framesOf a).length (totalLen rest)]

theorem expMds_length (gen : Nat → String) (c : Nat)
    (input : List (Option AnimationState)) :
    (expMds gen c input).length = input.length := by
  induction input generalizing c with
  | nil => rfl
  | cons a rest ih =>
    simp only [expMds, List.length_cons, ih (c + (framesOf a).length)]

theorem expMds_getD (gen : Nat → String) (c : Nat)
    (input : List (Option AnimationState)) (i : Nat) (h : i < input.length) :
    (expMds gen c input).getD i noMd =
      Metadata.mk (animAt input i).animationID (animAt input i).frameDuration
        (animAt input i).repeatCount (framesAt input i).length
        (expOrder gen (c + offsetAt input i) (framesAt input i).length) := by
  induction input generalizing c i with
  | nil => cases h
  | cons a rest ih =>
    cases i with
    | zero =>
      simp only [expMds, List.getD_cons_zero, animAt, framesAt, List.getD_cons_zero,
        offsetAt, Nat.add_zero, framesOf]
    | succ i =>
      have hi : i < rest.length := Nat.lt_of_succ_lt_succ h
      simp only [expMds, List.getD_cons_succ, animAt, framesAt, offsetAt,
        ih (c + (framesOf a).length) i hi]
      congr 2
      omega

theorem expFrames_mem (gen : Nat → String) (aid : Option String) (c : Nat)
    (fs : List FrameObj) (j : Nat) (h : j < fs.length) :
    Frame.mk (gen (c + j)) aid ((fs.getD j []).map (fun p => p.2)) ∈
      expFrames gen aid c fs := by
  induction fs generalizing c j with
  | nil => cases h
  | cons f rest ih =>
    cases j with
    | zero =>
      simp only [expFrames, Nat.add_zero, List.getD_cons_zero]
      exact List.mem_cons_self _ _
    | succ j =>
      have hj : j < rest.length := Nat.lt_of_succ_lt_succ h
      apply List.mem_cons_of_mem
      have := ih (c + 1) j hj
      simpa only [List.getD_cons_succ, Nat.add_comm, Nat.add_assoc, Nat.add_left_comm] using this

theorem expCache_mem (gen : Nat → String) (c : Nat)
    (input : List (Option AnimationState)) (i j : Nat)
    (hi : i < input.length) (hj : j < (framesAt input i).length) :
    Frame.mk (gen (c + offsetAt input i + j)) (animAt input i).animationID
      ((framesAt input i |>.getD j []).map (fun p => p.2)) ∈ expCache gen c input := by
  induction input generalizing c i with
  | nil => cases hi
  | cons a rest ih =>
    cases i with
    | zero =>
      simp only [expCache, List.mem_append]
      left
      have hj0 : j < (framesOf a).length := by
        simpa only [framesAt, List.getD_cons_zero] using hj
      have := expFrames_mem gen (a.getD noAnim).animationID c (framesOf a) j hj0
      simpa only [animAt, framesAt, List.getD_cons_zero, offsetAt, Nat.add_zero, framesOf]
        using this
    | succ i =>
      have hi2 : i < rest.length := Nat.lt_of_succ_lt_succ hi
      have hj2 : j < (framesAt rest i).length := by
        simpa only [framesAt, List.getD_cons_succ] using hj
      simp only [expCache, List.mem_append]
      right
      have := ih (c + (framesOf a).length) i hi2 hj2
      simp only [animAt, framesAt, List.getD_cons_succ, offsetAt]
      have harith : c + ((framesOf a).length + offsetAt rest i) + j =
          c + (framesOf a).length + offsetAt rest i + j := by omega
      rw [harith]
      exact this

/-- Validation rule for one frame exactly as the spec words it (section 4.4):
the flattened byte sequence has exactly 256 elements, each an integer in
`[0, 255]`. Stated only to compare the spec's claims with the code's
conversion rule, which demands `256 * 3` entries. -/
def specFrameValid (o : FrameObj) : Prop :=
  o.length = 256 ∧ ∀ p ∈ o, 0 ≤ p.2 ∧ p.2 ≤ 255

instance (o : FrameObj) : Decidable (specFrameValid o) := by
  unfold specFrameValid; infer_instance

/-- Validation rule for one animation entry as the spec words it (section
4.4): non-null, all four fields present, non-empty frame list, every frame
spec-valid. -/
def specAnimValid (a : Option AnimationState) : Prop :=
  a.isSome = true ∧ (a.getD noAnim).animationID.isSome = true ∧
  (a.getD noAnim).frameDuration.isSome = true ∧
  (a.getD noAnim).repeatCount.isSome = true ∧
  (a.getD noAnim).frames.isSome = true ∧ framesOf a ≠ [] ∧
  ∀ f ∈ framesOf a, specFrameValid f

instance (a : Option AnimationState) : Decidable (specAnimValid a) := by
  unfold specAnimValid; infer_instance

/-- Validity of a whole payload as the spec words it. -/
def specPayloadValid (input : List (Option AnimationState)) : Prop :=
  ∀ a ∈ input, specAnimValid a

instance (input : List (Option AnimationState)) : Decidable (specPayloadValid input) := by
  unfold specPayloadValid; infer_instance

/-- Dense frame object with `n` numeric keys, every channel equal to `v`. -/
def denseFrame (n : Nat) (v : Int) : FrameObj :=
  (List.range n).map (fun k => (toString k, v))

theorem denseFrame_length (n : Nat) (v : Int) : (denseFrame n v).length = n := by
  simp [denseFrame]

theorem denseFrame_valid (v : Int) (h0 : 0 ≤ v) (h1 : v ≤ 255) :
    frameObjValid (denseFrame 768 v) := by
  constructor
  · simp [denseFrame]
  · intro p hp
    simp only [denseFrame, List.mem_map, List.mem_range] at hp
    obtain ⟨k, _, rfl⟩ := hp
    exact ⟨h0, h1⟩

theorem denseFrame_map_snd (n : Nat) (v : Int) :
    (denseFrame n v).map (fun p => p.2) = List.replicate n v := by
  simp [denseFrame, List.map_map, Function.comp_def, List.map_const', List.length_range]

/-- Constant generator: every call returns the same identifier. -/
def genConst : Nat → String := fun _ => ("aaaaaa")

/-- Injective generator: call `n` returns the decimal spelling of `n`. -/
def genNum : Nat → String := fun n => Nat.repr n

/-- Empty server state. -/
def emptyState : ServerState := ServerState.mk [] []

/-- Some non-empty prior server state. -/
def prevState : ServerState :=
  ServerState.mk [Metadata.mk (some ("old")) (some 9) (some 9) 1 [("oldaaa")]]
    [Frame.mk ("oldaaa") (some ("old")) [1, 2, 3]]

/-- Payload with one animation whose frame list is empty. -/
def payloadEmptyFrames : List (Option AnimationState) :=
  [some (AnimationState.mk (some ("a")) (some 1) (some 0) (some []))]

/-- Payload with one animation and one 255-entry frame. -/
def payload255 : List (Option AnimationState) :=
  [some (AnimationState.mk (some ("a")) (some 1) (some 0) (some [denseFrame 255 0]))]

/-- Payload with one animation and one 768-entry frame (code-valid, but its
flattened length is 768, not the 256 the spec's validation rule names). -/
def payload768 : List (Option AnimationState) :=
  [some (AnimationState.mk (some ("a")) (some 1) (some 0) (some [denseFrame 768 0]))]

/-- Payload with one animation and two code-valid frames with different
pixel data. -/
def payloadDup : List (Option AnimationState) :=
  [some (AnimationState.mk (some ("a")) (some 1) (some 0)
    (some [denseFrame 768 0, denseFrame 768 1]))]

/-- Payload with two animations of 3 and 1 code-valid frames. -/
def payload31 : List (Option AnimationState) :=
  [some (AnimationState.mk (some ("a")) (some 1) (some 0)
     (some [denseFrame 768 0, denseFrame 768 1, denseFrame 768 2])),
   some (AnimationState.mk (some ("b")) (some 2) (some 3)
     (some [denseFrame 768 3]))]

/-- Payload with two animations of 3 and 1 frames, every frame with exactly
256 entries: valid under the spec's validation rule. -/
def payloadSpec31 : List (Option AnimationState) :=
  [some (AnimationState.mk (some ("a")) (some 1) (some 0)
     (some [denseFrame 256 0, denseFrame 256 1, denseFrame 256 2])),
   some (AnimationState.mk (some ("b")) (some 2) (some 3)
     (some [denseFrame 256 3]))]

theorem payload768_ok : inputOk payload768 := by
  refine ⟨by simp [payload768], ?_⟩
  intro a ha
  simp only [payload768, List.mem_singleton] at ha
  subst ha
  exact ⟨rfl, rfl, by
    intro f hf
    simp only [framesOf, Option.getD_some, List.mem_singleton] at hf
    exact hf ▸ denseFrame_valid 0 (by decide) (by decide)⟩

set_option maxRecDepth 8000 in
theorem payloadDup_ok : inputOk payloadDup := by
  refine ⟨by simp [payloadDup], ?_⟩
  intro a ha
  simp only [payloadDup, List.mem_singleton] at ha
  subst ha
  refine ⟨rfl, rfl, ?_⟩
  intro f hf
  simp only [framesOf, Option.getD_some, List.mem_cons, List.mem_singleton,
    List.not_mem_nil, or_false] at hf
  rcases hf with rfl | rfl
  · exact denseFrame_valid 0 (by decide) (by decide)
  · exact denseFrame_valid 1 (by decide) (by decide)

set_option maxRecDepth 8000 in
theorem payload31_ok : inputOk payload31 := by
  refine ⟨by simp [payload31], ?_⟩
  intro a ha
  simp only [payload31, List.mem_cons, List.mem_singleton, List.not_mem_nil, or_false] at ha
  rcases ha with rfl | rfl
  · refine ⟨rfl, rfl, ?_⟩
    intro f hf
    simp only [framesOf, Option.getD_some, List.mem_cons, List.mem_singleton,
      List.not_mem_nil, or_false] at hf
    rcases hf with rfl | rfl | rfl
    · exact denseFrame_valid 0 (by decide) (by decide)
    · exact denseFrame_valid 1 (by decide) (by decide)
    · exact denseFrame_valid 2 (by decide) (by decide)
  · refine ⟨rfl, rfl, ?_⟩
    intro f hf
    simp only [framesOf, Option.getD_some, List.mem_singleton] at hf
    exact hf ▸ denseFrame_valid 3 (by decide) (by decide)

/-- C10: for every input array of animation entries, whatever their contents,
`verifyAnimationJson` returns `true`; the early `return` only exits the
`forEach` callback, so the error value described by its contract is never
returned. -/
theorem c10_verify_always_true (input : List (Option AnimationState)) :
    verifyAnimationJson input = VerifyResult.boolean true := rfl

/-- C1 evaluation at the failing input: a payload whose single animation has
an empty frame list — invalid under the validation rules — passes
`verifyAnimationJson` and is accepted wholesale by the `POST /data` handler:
the caches are replaced and status 200 is returned. -/
theorem c1_code_evaluation :
    verifyAnimationJson payloadEmptyFrames = VerifyResult.boolean true ∧
    handlePost genConst emptyState payloadEmptyFrames true =
      (ServerState.mk [Metadata.mk (some ("a")) (some 1) (some 0) 0 []] [], some 200) :=
  ⟨rfl, rfl⟩

/-- C2 counterexample: under the claim's own notion of an invalid frame (a
flattened byte sequence without exactly 256 elements), a payload holding a
768-entry frame contains an invalid frame, yet the call mutates the caches:
starting from the empty state, the metadata cache afterwards holds one entry
and the request is answered 200. -/
theorem c2_counterexample :
    ¬ specFrameValid (denseFrame 768 0) ∧
    emptyState.metadataCache.length = 0 ∧
    (handlePost genConst emptyState payload768 true).1.metadataCache.length = 1 ∧
    (handlePost genConst emptyState payload768 true).2 = some 200 := by
  refine ⟨?_, rfl, ?_, ?_⟩
  · intro hv
    have hl := hv.1
    rw [denseFrame_length] at hl
    exact absurd hl (by decide)
  · rw [handlePost_ok genConst emptyState payload768 true payload768_ok]
    rw [show (ServerState.mk (expMds genConst 0 payload768) (expCache genConst 0 payload768),
      some (if true then 200 else 501)).1.metadataCache = expMds genConst 0 payload768 from rfl]
    rw [expMds_length]
    rfl
  · rw [handlePost_ok genConst emptyState payload768 true payload768_ok]
    rfl

/-- C2 amended: for every `POST /data` call whose payload contains a frame
the conversion step rejects (entry count different from `256 * 3`, or a
value outside `[0,255]`), the handler throws before the cache assignment:
both caches are exactly what they were before the call and no 200 response
is sent (no response is sent at all). -/
theorem c2_amended (gen : Nat → String) (st : ServerState)
    (input : List (Option AnimationState)) (persistOk : Bool)
    (h : ∃ a ∈ input, ∃ anim, a = some anim ∧ ∃ fs, anim.frames = some fs ∧
      ∃ f ∈ fs, ¬ frameObjValid f) :
    handlePost gen st input persistOk = (st, none) := by
  have hbad : ∀ r, processAnims gen 0 input ≠ Except.ok r := by
    intro r hr
    obtain ⟨a, ha, anim, rfl, fs, hfs, f, hf, hnv⟩ := h
    obtain ⟨_, _, h3⟩ := processAnims_ok_inv gen input 0 r hr (some anim) ha
    apply hnv
    apply h3
    simp only [framesOf, Option.getD_some, hfs]
    exact hf
  unfold handlePost verifyAnimationJson
  cases hha : headAccessOk input with
  | false => simp [hha]
  | true =>
    cases hpa : processAnims gen 0 input with
    | error e => simp [hha, hpa]
    | ok r => exact absurd hpa (hbad r)

/-- C2 witness: the claim's example — a frame with 255 entries instead of
the required count — leaves a non-empty prior state untouched. -/
theorem c2_witness : handlePost genConst prevState payload255 true = (prevState, none) := by
  apply c2_amended
  refine ⟨_, List.mem_singleton.mpr rfl, _, rfl, _, rfl,
    denseFrame 255 0, List.mem_singleton.mpr rfl, ?_⟩
  intro hv
  have hl := hv.1
  rw [denseFrame_length] at hl
  exact absurd hl (by decide)

/-- C7: for every payload the handler accepts, when the persistence sweep
fails the in-memory caches are not rolled back: the resulting state equals
the state produced when persistence succeeds — the newly built metadata and
frames — and the error is reported as status 501. -/
theorem c7_persistence_no_rollback (gen : Nat → String) (st : ServerState)
    (input : List (Option AnimationState)) (h : inputOk input) :
    (handlePost gen st input false).1 = (handlePost gen st input true).1 ∧
    (handlePost gen st input false).1 =
      ServerState.mk (expMds gen 0 input) (expCache gen 0 input) ∧
    (handlePost gen st input false).2 = some 501 := by
  rw [handlePost_ok gen st input false h, handlePost_ok gen st input true h]
  exact ⟨rfl, rfl, rfl⟩

/-- C7 witness: concrete accepted payload with failing persistence — the
caches hold the newly built values, the response is 501. -/
theorem c7_witness :
    inputOk payload768 ∧
    (handlePost genConst prevState payload768 false).1 =
      ServerState.mk (expMds genConst 0 payload768) (expCache genConst 0 payload768) ∧
    (handlePost genConst prevState payload768 false).2 = some 501 :=
  ⟨payload768_ok,
   (c7_persistence_no_rollback genConst prevState payload768 payload768_ok).2.1,
   (c7_persistence_no_rollback genConst prevState payload768 payload768_ok).2.2⟩

theorem denseFrame_specValid (v : Int) (h0 : 0 ≤ v) (h1 : v ≤ 255) :
    specFrameValid (denseFrame 256 v) := by
  constructor
  · simp [denseFrame]
  · intro p hp
    simp only [denseFrame, List.mem_map, List.mem_range] at hp
    obtain ⟨k, _, rfl⟩ := hp
    exact ⟨h0, h1⟩

/-- C3 counterexample: a payload of 2 animations with 3 and 1 frames that is
valid under the spec's validation rules (every frame flattens to exactly 256
in-range elements) is not accepted by the code: `objectToArray` demands
`256 * 3` entries and throws, so the metadata cache afterwards holds 0
entries instead of one entry per incoming animation. -/
theorem c3_counterexample :
    specPayloadValid payloadSpec31 ∧
    payloadSpec31.length = 2 ∧
    handlePost genConst emptyState payloadSpec31 true = (emptyState, none) := by
  refine ⟨?_, rfl, ?_⟩
  · intro a ha
    simp only [payloadSpec31, List.mem_cons, List.mem_singleton,
      List.not_mem_nil, or_false] at ha
    rcases ha with rfl | rfl
    · refine ⟨rfl, rfl, rfl, rfl, rfl, by simp [framesOf], ?_⟩
      intro f hf
      simp only [framesOf, Option.getD_some, List.mem_cons, List.mem_singleton,
        List.not_mem_nil, or_false] at hf
      rcases hf with rfl | rfl | rfl
      · exact denseFrame_specValid 0 (by decide) (by decide)
      · exact denseFrame_specValid 1 (by decide) (by decide)
      · exact denseFrame_specValid 2 (by decide) (by decide)
    · refine ⟨rfl, rfl, rfl, rfl, rfl, by simp [framesOf], ?_⟩
      intro f hf
      simp only [framesOf, Option.getD_some, List.mem_singleton] at hf
      subst hf
      exact denseFrame_specValid 3 (by decide) (by decide)
  · have hbad : ∀ r, processAnims genConst 0 payloadSpec31 ≠ Except.ok r := by
      intro r hr
      obtain ⟨_, _, h3⟩ := processAnims_ok_inv genConst payloadSpec31 0 r hr
        (payloadSpec31.getD 0 none) (by simp [payloadSpec31])
      have hmem : denseFrame 256 0 ∈ framesOf (payloadSpec31.getD 0 none) := by
        simp [payloadSpec31, framesOf]
      have hv := h3 (denseFrame 256 0) hmem
      have hl := hv.1
      rw [denseFrame_length] at hl
      exact absurd hl (by decide)
    unfold handlePost verifyAnimationJson
    cases hha : headAccessOk payloadSpec31 with
    | false => simp [hha]
    | true =>
      cases hpa : processAnims genConst 0 payloadSpec31 with
      | error e => simp [hha, hpa]
      | ok r => exact absurd hpa (hbad r)

/-- C3 amended: for every payload the code accepts (non-empty list of
non-null animations with defined frame lists whose frames all flatten to
`256 * 3` in-range entries), after the call the metadata cache holds exactly
one entry per incoming animation in order; each entry's `totalFrames` equals
its frame list's length, `frameOrder` has `totalFrames` entries, the frame
order consists of the successive generator outputs (identifiers are always
server-assigned, client frame order preserved), and every listed frameID
resolves to a cached `Frame` carrying that animation's pixel data. -/
theorem c3_replace_builds_cache (gen : Nat → String) (st : ServerState)
    (input : List (Option AnimationState)) (h : inputOk input) :
    (handlePost gen st input true).2 = some 200 ∧
    (handlePost gen st input true).1.metadataCache.length = input.length ∧
    ∀ i < input.length,
      ((handlePost gen st input true).1.metadataCache.getD i noMd).animationID =
        (animAt input i).animationID ∧
      ((handlePost gen st input true).1.metadataCache.getD i noMd).totalFrames =
        (framesAt input i).length ∧
      ((handlePost gen st input true).1.metadataCache.getD i noMd).frameOrder.length =
        ((handlePost gen st input true).1.metadataCache.getD i noMd).totalFrames ∧
      ((handlePost gen st input true).1.metadataCache.getD i noMd).frameOrder =
        expOrder gen (offsetAt input i) (framesAt input i).length ∧
      ∀ j < (framesAt input i).length,
        Frame.mk
          (((handlePost gen st input true).1.metadataCache.getD i noMd).frameOrder.getD j (""))
          (animAt input i).animationID
          ((framesAt input i |>.getD j []).map (fun p => p.2)) ∈
          (handlePost gen st input true).1.animationCache := by
  rw [handlePost_ok gen st input true h]
  refine ⟨rfl, ?_, ?_⟩
  · exact expMds_length gen 0 input
  · intro i hi
    rw [show (ServerState.mk (expMds gen 0 input) (expCache gen 0 input),
      some (if true then 200 else 501)).1.metadataCache = expMds gen 0 input from rfl]
    rw [expMds_getD gen 0 input i hi]
    refine ⟨rfl, rfl, expOrder_length gen (0 + offsetAt input i) (framesAt input i).length,
      by rw [Nat.zero_add], ?_⟩
    intro j hj
    rw [show (Metadata.mk (animAt input i).animationID (animAt input i).frameDuration
      (animAt input i).repeatCount (framesAt input i).length
      (expOrder gen (0 + offsetAt input i) (framesAt input i).length)).frameOrder =
      expOrder gen (0 + offsetAt input i) (framesAt input i).length from rfl]
    rw [expOrder_getD gen (0 + offsetAt input i) (framesAt input i).length j hj]
    exact expCache_mem gen 0 input i j hi hj

/-- C3 witness: the amended theorem applied to a concrete payload of 2
animations with 3 and 1 frames. -/
theorem c3_witness :
    inputOk payload31 ∧
    (handlePost genNum emptyState payload31 true).2 = some 200 ∧
    (handlePost genNum emptyState payload31 true).1.metadataCache.length = payload31.length ∧
    ((handlePost genNum emptyState payload31 true).1.metadataCache.getD 1 noMd).totalFrames =
      (framesAt payload31 1).length ∧
    Frame.mk
      (((handlePost genNum emptyState payload31 true).1.metadataCache.getD 0 noMd).frameOrder.getD 0 (""))
      (animAt payload31 0).animationID
      ((framesAt payload31 0 |>.getD 0 []).map (fun p => p.2)) ∈
      (handlePost genNum emptyState payload31 true).1.animationCache :=
  ⟨payload31_ok,
   (c3_replace_builds_cache genNum emptyState payload31 payload31_ok).1,
   (c3_replace_builds_cache genNum emptyState payload31 payload31_ok).2.1,
   ((c3_replace_builds_cache genNum emptyState payload31 payload31_ok).2.2 1
     (by simp [payload31])).2.1,
   (((c3_replace_builds_cache genNum emptyState payload31 payload31_ok).2.2 0
     (by simp [payload31])).2.2.2.2 0
     (by simp [payload31, framesAt, framesOf, animAt]))⟩

set_option maxRecDepth 100000 in
/-- C8 counterexample: nothing re-checks uniqueness after generation — when
the generator returns the same identifier twice, an accepted replace leaves
two distinct cached frames (different pixel data) sharing one frameID. -/
theorem c8_counterexample :
    ((handlePost genConst emptyState payloadDup true).1.animationCache).length = 2 ∧
    (((handlePost genConst emptyState payloadDup true).1.animationCache).getD 0 noFrame).frameID =
      (((handlePost genConst emptyState payloadDup true).1.animationCache).getD 1 noFrame).frameID ∧
    (((handlePost genConst emptyState payloadDup true).1.animationCache).getD 0 noFrame).data ≠
      (((handlePost genConst emptyState payloadDup true).1.animationCache).getD 1 noFrame).data := by
  rw [handlePost_ok genConst emptyState payloadDup true payloadDup_ok]
  have hcache : expCache genConst 0 payloadDup =
      [Frame.mk ("aaaaaa") (some ("a")) ((denseFrame 768 0).map (fun p => p.2)),
       Frame.mk ("aaaaaa") (some ("a")) ((denseFrame 768 1).map (fun p => p.2))] := by
    simp only [expCache, expFrames, payloadDup, framesOf, Option.getD_some, genConst,
      List.append_nil]
  rw [show (ServerState.mk (expMds genConst 0 payloadDup) (expCache genConst 0 payloadDup),
    some (if true then 200 else 501)).1.animationCache = expCache genConst 0 payloadDup from rfl]
  rw [hcache]
  refine ⟨rfl, rfl, ?_⟩
  rw [show ((([Frame.mk ("aaaaaa") (some ("a")) ((denseFrame 768 0).map (fun p => p.2)),
    Frame.mk ("aaaaaa") (some ("a")) ((denseFrame 768 1).map (fun p => p.2))] : List Frame).getD 0
    noFrame).data) = (denseFrame 768 0).map (fun p => p.2) from rfl]
  rw [show ((([Frame.mk ("aaaaaa") (some ("a")) ((denseFrame 768 0).map (fun p => p.2)),
    Frame.mk ("aaaaaa") (some ("a")) ((denseFrame 768 1).map (fun p => p.2))] : List Frame).getD 1
    noFrame).data) = (denseFrame 768 1).map (fun p => p.2) from rfl]
  rw [denseFrame_map_snd, denseFrame_map_snd]
  intro hcontra
  have h0 := congrArg (fun l => l.headD (5 : Int)) hcontra
  simp only [List.replicate, List.headD_cons] at h0
  exact absurd h0 (by decide)

/-- C8 amended: after an accepted replace, cached frameIDs are pairwise
distinct provided the generator outputs consumed by the call are pairwise
distinct; the code itself enforces no uniqueness, so the invariant holds
only for collision-free generator runs. -/
theorem c8_unique_ids_if_gen_injective (gen : Nat → String) (st : ServerState)
    (input : List (Option AnimationState)) (persistOk : Bool)
    (h1 : inputOk input)
    (h2 : ∀ i < totalLen input, ∀ j < totalLen input, gen i = gen j → i = j) :
    (((handlePost gen st input persistOk).1.animationCache).map (fun fr => fr.frameID)).Nodup := by
  rw [handlePost_ok gen st input persistOk h1]
  rw [show (ServerState.mk (expMds gen 0 input) (expCache gen 0 input),
    some (if persistOk then 200 else 501)).1.animationCache = expCache gen 0 input from rfl]
  rw [expCache_ids]
  apply expOrder_nodup
  intro i j hi1 hi2 hj1 hj2 he
  exact h2 i (by omega) j (by omega) he

/-- C8 witness: with an injective generator the two frames of the accepted
payload get distinct identifiers. -/
theorem c8_witness :
    (((handlePost genNum emptyState payloadDup true).1.animationCache).map
      (fun fr => fr.frameID)).Nodup :=
  c8_unique_ids_if_gen_injective genNum emptyState payloadDup true payloadDup_ok (by decide)

/-- State whose animation cache holds a frame with identifier `abcdef`. -/
def stWithFrame : ServerState :=
  ServerState.mk [] [Frame.mk ("abcdef") (some ("a")) [7]]

/-- Store collaborator with no frames at all. -/
def fetchNone : String → Except String (Option (List Int)) := fun _ => Except.ok none

/-- Store collaborator holding exactly the frame `abcdef`. -/
def fetchOne : String → Except String (Option (List Int)) :=
  fun s => if s = ("abcdef" : String) then Except.ok (some [1, 2, 3]) else Except.ok none

/-- C4 counterexample: the `/frameData/:frameId` handler consults only the
persisted store. With a frame present in the in-memory cache but absent from
the store, the route answers 404 — the lookup is not answered from the
cache, contradicting the claim. -/
theorem c4_counterexample :
    Frame.mk ("abcdef") (some ("a")) [7] ∈ stWithFrame.animationCache ∧
    (Frame.mk ("abcdef") (some ("a")) [7]).frameID = ("abcdef" : String) ∧
    frameDataRoute fetchNone ("abcdef") = FrameResponse.notFound :=
  ⟨List.mem_singleton.mpr rfl, rfl, rfl⟩

/-- C4 amended: for every steady-state `getFrame` call with a non-empty
identifier, the answer comes from the persisted store, independently of the
in-memory cache: a frameID the store resolves is returned as its bytes, and
one the store lacks yields NotFound. -/
theorem c4_route_reads_store (fetch : String → Except String (Option (List Int)))
    (fid : String) (h : fid ≠ ("" : String)) :
    (∀ d, fetch fid = Except.ok (some d) → frameDataRoute fetch fid = FrameResponse.okBytes d) ∧
    (fetch fid = Except.ok none → frameDataRoute fetch fid = FrameResponse.notFound) := by
  constructor
  · intro d hd
    unfold frameDataRoute
    rw [if_neg h, hd]
  · intro hd
    unfold frameDataRoute
    rw [if_neg h, hd]

/-- C4 witness: concrete store with one frame — present identifier returned,
absent identifier yields 404. -/
theorem c4_witness :
    frameDataRoute fetchOne ("abcdef") = FrameResponse.okBytes [1, 2, 3] ∧
    frameDataRoute fetchOne ("zzzzzz") = FrameResponse.notFound :=
  ⟨(c4_route_reads_store fetchOne ("abcdef") (by decide)).1 [1, 2, 3] rfl,
   (c4_route_reads_store fetchOne ("zzzzzz") (by decide)).2 rfl⟩

/-- Sample metadata entry with a correctly sized frame identifier. -/
def mdSample : Metadata := Metadata.mk (some ("a")) (some 1) (some 0) 1 [("aaaaaa")]

/-- C5 evaluation at the failing input: the `/metadata` route sends the bare
metadata array, not the `{ metadata: ... }` wrapper; the client-side
decoder's `data.metadata` read finds nothing on that shape, while it would
find the list on the wrapped shape the spec describes. -/
theorem c5_code_evaluation :
    metadataRoute [mdSample] = Except.ok (MetadataWire.bareList [mdSample]) ∧
    clientReadMetadata (MetadataWire.bareList [mdSample]) = none ∧
    clientReadMetadata (MetadataWire.wrappedObj [mdSample]) = some [mdSample] :=
  ⟨rfl, rfl, rfl⟩

theorem initInner_ok_inv (fetch : String → Except String (Option (List Int)))
    (md : Metadata) (js : List Nat) :
    ∀ acc, (initInner fetch md js acc).2 = none →
      ∀ j ∈ js, ∃ d, fetch (md.frameOrder.getD j ("")) = Except.ok (some d) := by
  induction js with
  | nil => intro acc h j hj; cases hj
  | cons j0 rest ih =>
    intro acc h j hj
    rw [List.mem_cons] at hj
    cases hfetch : fetch (md.frameOrder.getD j0 ("")) with
    | error e =>
      simp only [initInner, hfetch] at h
      exact Option.noConfusion h
    | ok od =>
      cases od with
      | none =>
        simp only [initInner, hfetch] at h
        exact Option.noConfusion h
      | some d =>
        rcases hj with rfl | hj
        · exact ⟨d, hfetch⟩
        · simp only [initInner, hfetch] at h
          exact ih _ h j hj

theorem initOuter_ok_inv (fetch : String → Except String (Option (List Int)))
    (mds : List Metadata) :
    ∀ acc, (initOuter fetch mds acc).2 = none →
      ∀ md ∈ mds, ∀ j ∈ List.range md.totalFrames,
        ∃ d, fetch (md.frameOrder.getD j ("")) = Except.ok (some d) := by
  induction mds with
  | nil => intro acc h md hmd; cases hmd
  | cons m0 rest ih =>
    intro acc h md hmd
    rw [List.mem_cons] at hmd
    rcases hinner : initInner fetch m0 (List.range m0.totalFrames) acc with ⟨acc2, errOpt⟩
    cases errOpt with
    | none =>
      have houter : initOuter fetch (m0 :: rest) acc = initOuter fetch rest acc2 := by
        simp only [initOuter, hinner]
      rw [houter] at h
      rcases hmd with rfl | hmd
      · intro j hj
        exact initInner_ok_inv fetch md (List.range md.totalFrames) acc
          (by rw [hinner]) j hj
      · exact ih acc2 h md hmd
    | some e =>
      have houter : initOuter fetch (m0 :: rest) acc = (acc2, some e) := by
        simp only [initOuter, hinner]
      rw [houter] at h
      cases h

/-- C6 amended: when some stored metadata entry references a frame the store
cannot resolve, initialization fails (the assertion throws before the loop
completes), and the metadata cache has already been assigned; the animation
cache, however, retains the frames fetched before the failure rather than
being left empty. -/
theorem c6_init_fails_on_missing_frame (fetch : String → Except String (Option (List Int)))
    (storedMds : List Metadata)
    (h : ∃ md ∈ storedMds, ∃ j, j < md.totalFrames ∧
      fetch (md.frameOrder.getD j ("")) = Except.ok none) :
    ((connectToDbAndInitCache fetch storedMds).error).isSome = true ∧
    (connectToDbAndInitCache fetch storedMds).metadataCache = storedMds := by
  refine ⟨?_, rfl⟩
  obtain ⟨md, hmd, j, hj, hfetch⟩ := h
  unfold connectToDbAndInitCache
  cases herr : (initOuter fetch storedMds []).2 with
  | some e => rfl
  | none =>
    exfalso
    obtain ⟨d, hd⟩ :=
      initOuter_ok_inv fetch storedMds [] herr md hmd j (List.mem_range.mpr hj)
    rw [hfetch] at hd
    simp at hd

/-- Metadata entry referencing the stored frame `f1aaaa`. -/
def mdA : Metadata := Metadata.mk (some ("A")) (some 1) (some 0) 1 [("f1aaaa")]

/-- Metadata entry referencing the missing frame `f2aaaa`. -/
def mdB : Metadata := Metadata.mk (some ("B")) (some 1) (some 0) 1 [("f2aaaa")]

/-- Store holding only the frame `f1aaaa`. -/
def fetchSeeded : String → Except String (Option (List Int)) :=
  fun fid => if fid = ("f1aaaa" : String) then Except.ok (some [7]) else Except.ok none

/-- C6 counterexample: with the first animation's frame present and the
second missing, initialization fails — but the animation cache holds the
frame added before the failure, not no frames. -/
theorem c6_counterexample :
    ((connectToDbAndInitCache fetchSeeded [mdA, mdB]).error).isSome = true ∧
    (connectToDbAndInitCache fetchSeeded [mdA, mdB]).animationCache =
      [Frame.mk ("f1aaaa") (some ("A")) [7]] ∧
    (connectToDbAndInitCache fetchSeeded [mdA, mdB]).animationCache ≠ [] := by
  refine ⟨rfl, rfl, ?_⟩
  intro hcontra
  cases hcontra

/-- C6 witness: the amended theorem applied to the seeded store. -/
theorem c6_witness :
    ((connectToDbAndInitCache fetchSeeded [mdA, mdB]).error).isSome = true ∧
    (connectToDbAndInitCache fetchSeeded [mdA, mdB]).metadataCache = [mdA, mdB] :=
  c6_init_fails_on_missing_frame fetchSeeded [mdA, mdB]
    ⟨mdB, by decide, 0, by decide, rfl⟩

/-- Success test for an `Except` result. -/
def exceptIsOk {α : Type} : Except String α → Bool
  | Except.ok _ => true
  | Except.error _ => false

theorem ofFn_getD {α : Type} {n : Nat} (f : Fin n → α) (d : α) (i : Nat) (h : i < n) :
    (List.ofFn f).getD i d = f ⟨i, h⟩ := by
  have hlen : i < (List.ofFn f).length := by rw [List.length_ofFn]; exact h
  rw [List.getD_eq_getElem _ _ hlen, List.getElem_ofFn]

theorem rowJoin_eq (arr : List Int) (m : Nat) :
    ∀ off, off + 3 * m ≤ arr.length →
      (List.ofFn (fun j : Fin m =>
        [arr.getD (off + 3 * j.val) 0, arr.getD (off + 3 * j.val + 1) 0,
         arr.getD (off + 3 * j.val + 2) 0])).flatten = (arr.drop off).take (3 * m) := by
  induction m with
  | zero =>
    intro off h
    simp [List.ofFn_zero]
  | succ m ih =>
    intro off h
    rw [List.ofFn_succ]
    simp only [Fin.val_succ, Fin.val_zero, Nat.mul_zero, Nat.add_zero, List.flatten_cons]
    have hfn : ∀ jv : Nat, off + 3 * (jv + 1) = off + 3 + 3 * jv := fun jv => by omega
    simp only [hfn]
    rw [ih (off + 3) (by omega)]
    have h0 : off < arr.length := by omega
    have h1 : off + 1 < arr.length := by omega
    have h2 : off + 1 + 1 < arr.length := by omega
    have h2' : off + 2 < arr.length := by omega
    rw [show 3 * (m + 1) = 3 * m + 1 + 1 + 1 from by omega]
    rw [List.drop_eq_getElem_cons h0, List.take_succ_cons]
    rw [List.drop_eq_getElem_cons h1, List.take_succ_cons]
    rw [List.drop_eq_getElem_cons h2, List.take_succ_cons]
    rw [List.getD_eq_getElem arr 0 h0, List.getD_eq_getElem arr 0 h1,
      List.getD_eq_getElem arr 0 h2']
    simp only [List.cons_append, List.nil_append,
      show off + 1 + 1 = off + 2 from by omega, show off + 1 + 1 + 1 = off + 3 from by omega]

theorem gridJoin_eq (arr : List Int) (r : Nat) :
    ∀ off, off + 48 * r ≤ arr.length →
      (List.ofFn (fun i : Fin r => (arr.drop (off + 48 * i.val)).take 48)).flatten
        = (arr.drop off).take (48 * r) := by
  induction r with
  | zero =>
    intro off h
    simp [List.ofFn_zero]
  | succ r ih =>
    intro off h
    rw [List.ofFn_succ]
    simp only [Fin.val_succ, Fin.val_zero, Nat.mul_zero, Nat.add_zero, List.flatten_cons]
    have hfn : ∀ iv : Nat, off + 48 * (iv + 1) = off + 48 + 48 * iv := fun iv => by omega
    simp only [hfn]
    rw [ih (off + 48) (by omega)]
    rw [show 48 * (r + 1) = 48 + 48 * r from by omega]
    rw [List.take_add, List.drop_drop]

theorem gridJoin_eq0 (arr : List Int) (r : Nat) (h : 48 * r ≤ arr.length) :
    (List.ofFn (fun i : Fin r => (arr.drop (48 * i.val)).take 48)).flatten
      = arr.take (48 * r) := by
  have hg := gridJoin_eq arr r 0 (by omega)
  simp only [Nat.zero_add, List.drop_zero] at hg
  exact hg

/-- C9: for every byte buffer of length exactly 768, `get2Darray` succeeds,
places the triplet at flat index `3 * (row * 16 + col)` at
`grid[row][col]`, and flattening the resulting 16x16 grid in row-major
order reproduces the original buffer exactly; for every buffer of any other
length it fails with the length assertion. -/
theorem c9_toGrid_roundtrip (arr : List Int) :
    (arr.length = 768 →
      exceptIsOk (get2Darray arr) = true ∧
      (∀ i < 16, ∀ j < 16,
        ((gridOrNil (get2Darray arr)).getD i []).getD j [] =
          [arr.getD (3 * (i * 16 + j)) 0, arr.getD (3 * (i * 16 + j) + 1) 0,
           arr.getD (3 * (i * 16 + j) + 2) 0]) ∧
      flattenGrid (gridOrNil (get2Darray arr)) = arr) ∧
    (arr.length ≠ 768 →
      get2Darray arr = Except.error ("Array length needs to be 256*3")) := by
  constructor
  · intro h
    have hc : arr.length = FRAME_PIXEL_COUNT * 3 := by rw [h]; decide
    refine ⟨?_, ?_, ?_⟩
    · unfold get2Darray
      rw [if_pos hc]
      rfl
    · intro i hi j hj
      unfold get2Darray
      rw [if_pos hc]
      simp only [gridOrNil]
      rw [ofFn_getD _ [] i hi, ofFn_getD _ [] j hj]
      rfl
    · unfold get2Darray
      rw [if_pos hc]
      simp only [gridOrNil, flattenGrid]
      rw [List.map_ofFn]
      have hrow : (List.flatten ∘ fun i : Fin IMAGE_PIXEL_LENGTH =>
          List.ofFn (fun j : Fin IMAGE_PIXEL_LENGTH =>
            [arr.getD (3 * (i.val * IMAGE_PIXEL_LENGTH + j.val)) 0,
             arr.getD (3 * (i.val * IMAGE_PIXEL_LENGTH + j.val) + 1) 0,
             arr.getD (3 * (i.val * IMAGE_PIXEL_LENGTH + j.val) + 2) 0])) =
          fun i : Fin IMAGE_PIXEL_LENGTH => (arr.drop (48 * i.val)).take 48 := by
        funext i
        simp only [Function.comp]
        have hidx : ∀ jv : Nat,
            3 * (i.val * IMAGE_PIXEL_LENGTH + jv) = 48 * i.val + 3 * jv := by
          intro jv
          simp only [IMAGE_PIXEL_LENGTH]
          omega
        simp only [hidx]
        have hlt : i.val < 16 := by
          have := i.isLt
          simpa only [IMAGE_PIXEL_LENGTH] using this
        exact rowJoin_eq arr 16 (48 * i.val) (by omega)
      rw [hrow]
      have hfin : (List.ofFn (fun i : Fin IMAGE_PIXEL_LENGTH =>
          (arr.drop (48 * i.val)).take 48)).flatten = arr.take (48 * 16) :=
        gridJoin_eq0 arr 16 (by omega)
      rw [hfin, show (48 * 16 : Nat) = 768 from rfl, ← h, List.take_length]
  · intro h
    unfold get2Darray
    rw [if_neg (fun hc : arr.length = FRAME_PIXEL_COUNT * 3 => h (by rw [hc]; decide))]

/-- C9 witness: the roundtrip theorem applied to a concrete 768-byte buffer
and the length failure applied to a 2-byte buffer. -/
theorem c9_witness :
    exceptIsOk (get2Darray (List.replicate 768 (5 : Int))) = true ∧
    ((gridOrNil (get2Darray (List.replicate 768 (5 : Int)))).getD 0 []).getD 1 [] =
      [(List.replicate 768 (5 : Int)).getD (3 * (0 * 16 + 1)) 0,
       (List.replicate 768 (5 : Int)).getD (3 * (0 * 16 + 1) + 1) 0,
       (List.replicate 768 (5 : Int)).getD (3 * (0 * 16 + 1) + 2) 0] ∧
    flattenGrid (gridOrNil (get2Darray (List.replicate 768 (5 : Int)))) =
      List.replicate 768 (5 : Int) ∧
    get2Darray [1, 2] = Except.error ("Array length needs to be 256*3") :=
  ⟨((c9_toGrid_roundtrip (List.replicate 768 (5 : Int))).1 (List.length_replicate _ _)).1,
   ((c9_toGrid_roundtrip (List.replicate 768 (5 : Int))).1 (List.length_replicate _ _)).2.1 0
     (by decide) 1 (by decide),
   ((c9_toGrid_roundtrip (List.replicate 768 (5 : Int))).1 (List.length_replicate _ _)).2.2,
   (c9_toGrid_roundtrip [1, 2]).2 (by decide)⟩
